import Mathlib

/- Verification development for the browser chat client in `src/main.js`.
   The JavaScript is shallowly embedded: JSON values are an inductive type,
   JS truthiness / field access / `||` / `&&` are explicit functions, and the
   places where JS property access throws a TypeError (access on `null`) are
   modelled with `Except Unit`. -/

set_option maxRecDepth 4096

/-- A parsed JSON value, as produced by `res.json()` / `JSON.parse`.
    JS numbers are restricted to integers here; no claim inspects
    non-integer numerics.  Objects are association lists in insertion
    order (JSON.parse output has distinct keys). -/
inductive Json where
  | null
  | bool (b : Bool)
  | num (n : Int)
  | str (s : String)
  | arr (elems : List Json)
  | obj (fields : List (String × Json))

/-- Is the value the JS `null`?  (`x === null`). -/
def isNull : Json → Bool
  | Json.null => true
  | _ => false

/-- JS truthiness of a possibly-undefined value (`none` = `undefined`).
    Falsy: `undefined`, `null`, `false`, `0`, `""`.  (NaN is outside the
    integer number model.) -/
def truthy : Option Json → Bool
  | none => false
  | some Json.null => false
  | some (Json.bool b) => b
  | some (Json.num n) => n != 0
  | some (Json.str s) => s != ""
  | some (Json.arr _) => true
  | some (Json.obj _) => true

/-- First field with the given key in an association list. -/
def lookupFld : List (String × Json) → String → Option Json
  | [], _ => none
  | (k, v) :: t, key => if k = key then some v else lookupFld t key

/-- JS property access `v.key` on a value that is NOT null/undefined:
    objects yield the field (or `undefined`), every other value yields
    `undefined` for the keys the client reads.  Access on `null` throws in
    JS; callers model that case explicitly with `Except`. -/
def fld : Json → String → Option Json
  | Json.obj fs, key => lookupFld fs key
  | _, _ => none

/-- Property access behind a possibly-undefined base (`undefined` stays
    `undefined`); only used where the base was already checked truthy. -/
def mfld : Option Json → String → Option Json
  | some v, key => fld v key
  | none, _ => none

/-- JS `a || b`: `a` if truthy, else `b`. -/
def jor (a b : Option Json) : Option Json :=
  if truthy a then a else b

/-- JS `a && b`: `b` if `a` truthy, else `a`. -/
def jand (a b : Option Json) : Option Json :=
  if truthy a then b else a

/-- JS `chain || dflt` where `dflt` is a plain (defined) value: the chain
    value if truthy, else the default. -/
def jorD (o : Option Json) (dflt : Json) : Json :=
  if truthy o then o.getD dflt else dflt

/-- JS `chain || null`. -/
def orNull (o : Option Json) : Json :=
  jorD o Json.null

/-- Whitespace recognised by `String.prototype.trim` (ASCII subset; the
    keys and prompts in the claims only use these). -/
def jsWhite (c : Char) : Bool :=
  c = ' ' || c = '\t' || c = '\n' || c = '\r' || c.toNat = 11 || c.toNat = 12

/-- Drop leading whitespace. -/
def dropWhiteL : List Char → List Char
  | [] => []
  | c :: t => if jsWhite c then dropWhiteL t else c :: t

/-- JS `s.trim()`. -/
def jsTrim (s : String) : String :=
  String.mk ((dropWhiteL (dropWhiteL s.data.reverse).reverse))

/-- Does `l` start with `pat`? -/
def startsWithL : List Char → List Char → Bool
  | [], _ => true
  | _ :: _, [] => false
  | p :: ps, c :: cs => p == c && startsWithL ps cs

/-- Does `l` contain `pat` as a contiguous run? -/
def hasSubL (pat : List Char) : List Char → Bool
  | [] => startsWithL pat []
  | c :: t => startsWithL pat (c :: t) || hasSubL pat t

/-- Substring test on strings: does `s` contain `pat`? -/
def hasSubStr (pat s : String) : Bool :=
  hasSubL pat.data s.data

/-- ASCII lower-casing, the effect of a `/i` regex on the patterns used. -/
def lowerStr (s : String) : String :=
  String.mk (s.data.map Char.toLower)

/-- The test `/<\/?script/i.test(text)` from `main.js` line 197: a
    case-insensitive `<script` or `</script` run. -/
def scriptTagTest (s : String) : Bool :=
  hasSubStr "<script" (lowerStr s) || hasSubStr "</script" (lowerStr s)

/-- The test `/CORS|Network|Failed to fetch/i.test(msg)` from line 217. -/
def corsMarkerTest (s : String) : Bool :=
  hasSubStr "cors" (lowerStr s) || hasSubStr "network" (lowerStr s) ||
    hasSubStr "failed to fetch" (lowerStr s)

/-- Decimal digit character. -/
def digitChar : Nat → Char
  | 0 => '0' | 1 => '1' | 2 => '2' | 3 => '3' | 4 => '4'
  | 5 => '5' | 6 => '6' | 7 => '7' | 8 => '8' | 9 => '9'
  | _ => '?'

/-- Digits of `n` in base 10, most significant first.  The first argument
    is structural fuel; `n + 1` is always enough. -/
def natToDecAux : Nat → Nat → List Char
  | 0, _ => []
  | fuel + 1, n =>
    if n < 10 then [digitChar n]
    else natToDecAux fuel (n / 10) ++ [digitChar (n % 10)]

/-- JS `String(n)` for a non-negative integer (decimal notation). -/
def natToDec (n : Nat) : String :=
  String.mk (natToDecAux (n + 1) n)

/-- JS `String(i)` for an integer. -/
def intToDec (i : Int) : String :=
  if i < 0 then "-" ++ natToDec i.natAbs else natToDec i.natAbs

/-- Read a digit string back as a number (proof tool for injectivity). -/
def decDigits (l : List Char) : Nat :=
  l.foldl (fun acc c => acc * 10 + (c.toNat - 48)) 0

/-- Join strings with a separator (`Array.prototype.join`). -/
def joinSep (sep : String) : List String → String
  | [] => ""
  | [s] => s
  | s :: t => s ++ sep ++ joinSep sep t

/-- Hexadecimal digit character (lower case), for `\u00XX` escapes. -/
def hexDigit : Nat → Char
  | 10 => 'a' | 11 => 'b' | 12 => 'c' | 13 => 'd' | 14 => 'e' | 15 => 'f'
  | d => digitChar d

/-- JSON string escaping for one character, as `JSON.stringify` performs. -/
def escStrChar (c : Char) : List Char :=
  if c = '\"' then ['\\', '\"']
  else if c = '\\' then ['\\', '\\']
  else if c = '\n' then ['\\', 'n']
  else if c = '\t' then ['\\', 't']
  else if c = '\r' then ['\\', 'r']
  else if c.toNat = 8 then ['\\', 'b']
  else if c.toNat = 12 then ['\\', 'f']
  else if c.toNat < 32 then
    ['\\', 'u', '0', '0', hexDigit (c.toNat / 16), hexDigit (c.toNat % 16)]
  else [c]

/-- Escaped body of a JSON string literal. -/
def escJson (s : String) : String :=
  String.mk (s.data.foldr (fun c acc => escStrChar c ++ acc) [])

/-- JS `String(v)` coercion (`Array.prototype.join` uses it per element,
    turning `null` elements into `""`).  Fuel-indexed for nested
    arrays. -/
def jsToStringF : Nat → Json → String
  | _, Json.null => "null"
  | _, Json.bool b => if b then "true" else "false"
  | _, Json.num n => intToDec n
  | _, Json.str s => s
  | 0, Json.arr _ => ""
  | fuel + 1, Json.arr xs =>
    joinSep "," (xs.map fun x =>
      match x with
      | Json.null => ""
      | v => jsToStringF fuel v)
  | _, Json.obj _ => "[object Object]"

/-- Nesting-depth fuel for the recursive JSON string functions.  The bound
    vastly exceeds the depth of any value in this development; no theorem
    depends on its size (universal statements pass the rendered string
    through unchanged, concrete values are a few levels deep). -/
def jsonFuel : Nat := 1048576

/-- JS `String(v)`. -/
def jsToString (v : Json) : String :=
  jsToStringF jsonFuel v

/-- Compact `JSON.stringify(v)`.  Fuel-indexed for nesting. -/
def jsonStringifyF : Nat → Json → String
  | _, Json.null => "null"
  | _, Json.bool b => if b then "true" else "false"
  | _, Json.num n => intToDec n
  | _, Json.str s => "\"" ++ escJson s ++ "\""
  | 0, Json.arr _ => ""
  | 0, Json.obj _ => ""
  | fuel + 1, Json.arr xs =>
    "[" ++ joinSep "," (xs.map (jsonStringifyF fuel)) ++ "]"
  | fuel + 1, Json.obj fs =>
    "\x7b" ++
      joinSep "," (fs.map fun kv =>
        "\"" ++ escJson kv.1 ++ "\":" ++ jsonStringifyF fuel kv.2) ++
      "\x7d"

/-- Compact `JSON.stringify(v)`. -/
def jsonStringify (v : Json) : String :=
  jsonStringifyF jsonFuel v

/-- Indentation of `2 * lvl` spaces. -/
def indentOf (lvl : Nat) : String :=
  String.mk (List.replicate (2 * lvl) ' ')

/-- Pretty `JSON.stringify(v, null, 2)` at nesting level `lvl`.
    Fuel-indexed for nesting. -/
def pretty2F : Nat → Nat → Json → String
  | _, _, Json.null => "null"
  | _, _, Json.bool b => if b then "true" else "false"
  | _, _, Json.num n => intToDec n
  | _, _, Json.str s => "\"" ++ escJson s ++ "\""
  | 0, _, Json.arr _ => ""
  | 0, _, Json.obj _ => ""
  | _ + 1, _, Json.arr [] => "[]"
  | _ + 1, _, Json.obj [] => "\x7b\x7d"
  | fuel + 1, lvl, Json.arr xs =>
    "[\n" ++
      joinSep ",\n" (xs.map fun x => indentOf (lvl + 1) ++ pretty2F fuel (lvl + 1) x) ++
      "\n" ++ indentOf lvl ++ "]"
  | fuel + 1, lvl, Json.obj fs =>
    "\x7b\n" ++
      joinSep ",\n" (fs.map fun kv =>
        indentOf (lvl + 1) ++ "\"" ++ escJson kv.1 ++ "\": " ++
          pretty2F fuel (lvl + 1) kv.2) ++
      "\n" ++ indentOf lvl ++ "\x7d"

/-- Pretty `JSON.stringify(v, null, 2)` — the fallback text of the
    response normalizer (`main.js` line 188). -/
def pretty2 (v : Json) : String :=
  pretty2F jsonFuel 0 v

/-- Newline-to-line-break substitution `text.replace(/\n/g, '<br>')`
    (`main.js` line 202).  Every `\n` becomes `<br>`; every other
    character is kept unchanged. -/
def nlToBr (s : String) : String :=
  String.mk (s.data.foldr
    (fun c acc => if c = '\n' then '<' :: 'b' :: 'r' :: '>' :: acc else c :: acc) [])


/-- The credential resolver `getApiKey` (`main.js` lines 56-62): the
    process-wide `window.OPENAI_KEY` (if a truthy string with truthy
    trim), else the `#apiKey` input value under the same test, else
    nothing.  `none` models an absent source. -/
def getApiKey (globalKey uiKey : Option String) : Option String :=
  match globalKey with
  | some g =>
    if g ≠ "" ∧ jsTrim g ≠ "" then some (jsTrim g)
    else
      match uiKey with
      | some u => if u ≠ "" ∧ jsTrim u ≠ "" then some (jsTrim u) else none
      | none => none
  | none =>
    match uiKey with
    | some u => if u ≠ "" ∧ jsTrim u ≠ "" then some (jsTrim u) else none
    | none => none

/-- The placeholder element id `'thinking-' + Date.now()` (`main.js`
    line 141), for a send whose `Date.now()` was `t` milliseconds. -/
def thinkingId (t : Nat) : String :=
  "thinking-" ++ natToDec t

/-- The shape test `Array.isArray(v)` on a possibly-undefined value,
    keeping the element list when it holds. -/
def asArr : Option Json → Option (List Json)
  | some (Json.arr xs) => some xs
  | _ => none

/-- The condition `j.choices && Array.isArray(j.choices) && j.choices[0]`
    (`main.js` line 179): yields the first element of `choices` when the
    field is an array whose first element is truthy. -/
def choicesHead (j : Json) : Option Json :=
  match fld j "choices" with
  | some (Json.arr (c :: _)) => if truthy (some c) then some c else none
  | _ => none

/-- The chain `(c.message && c.message.content) || c.text ||
    (c.delta && c.delta.content)` from `main.js` line 181. -/
def contentOf (c : Json) : Option Json :=
  jor
    (jor (jand (fld c "message") (mfld (fld c "message") "content"))
      (fld c "text"))
    (jand (fld c "delta") (mfld (fld c "delta") "content"))

/-- One element of the `output` array: `x.content || JSON.stringify(x)`
    (`main.js` line 184).  Property access on a `null` element throws. -/
def outputElemText (x : Json) : Except Unit Json :=
  match x with
  | Json.null => Except.error ()
  | v => Except.ok (jorD (fld v "content") (Json.str (jsonStringify v)))

/-- Effectful map, stopping at the first thrown access, as
    `Array.prototype.map` does when its callback throws. -/
def mapE (f : Json → Except Unit Json) : List Json → Except Unit (List Json)
  | [] => Except.ok []
  | x :: t =>
    match f x with
    | Except.error e => Except.error e
    | Except.ok y =>
      match mapE f t with
      | Except.error e => Except.error e
      | Except.ok ys => Except.ok (y :: ys)

/-- `Array.prototype.join('\n')` over the mapped `output` elements:
    each element is coerced with `String(·)`. -/
def joinNl (ms : List Json) : String :=
  joinSep "\n" (ms.map jsToString)

/-- The response normalizer, `main.js` lines 178-189.  The result is the
    JS value assigned to `assistantText` (`Json.null` models the JS
    `null` left when a truthy first choice carries no recognized content
    field).  `Except.error` models a thrown `TypeError`: `j.choices` on a
    `null` body, or `x.content` on a `null` element of `output`. -/
def extractTextCore (j : Json) : Except Unit Json :=
  match choicesHead j with
  | some c => Except.ok (orNull (contentOf c))
  | none =>
    if truthy (fld j "output") then
      match fld j "output" with
      | some (Json.str s) => Except.ok (Json.str s)
      | some (Json.arr xs) =>
        match mapE outputElemText xs with
        | Except.error e => Except.error e
        | Except.ok ms => Except.ok (Json.str (joinNl ms))
      | some v => Except.ok (Json.str (jsonStringify v))
      | none => Except.ok Json.null
    else if truthy (fld j "result") then
      Except.ok ((fld j "result").getD Json.null)
    else
      Except.ok (Json.str (pretty2 j))

/-- The response normalizer with its leading throw: `j.choices` on a
    `null` body throws before any branch is tried. -/
def extractText (j : Json) : Except Unit Json :=
  if isNull j then Except.error () else extractTextCore j

/-- One element of a top-level catalog array:
    `m.id || m.model || m.name || String(m)` (`main.js` line 95).
    Access on a `null` element throws. -/
def topElemText (m : Json) : Except Unit Json :=
  match m with
  | Json.null => Except.error ()
  | v =>
    Except.ok (jorD (jor (jor (fld v "id") (fld v "model")) (fld v "name"))
      (Json.str (jsToString v)))

/-- The pure mapping of one element of `data`/`models`:
    `m.id || m.name || m.model || JSON.stringify(m)` (`main.js`
    lines 96-97), defined for non-null elements. -/
def dataMapped (m : Json) : Json :=
  jorD (jor (jor (fld m "id") (fld m "name")) (fld m "model"))
    (Json.str (jsonStringify m))

/-- One element of `data`/`models`; access on a `null` element throws. -/
def dataElemText (m : Json) : Except Unit Json :=
  match m with
  | Json.null => Except.error ()
  | v => Except.ok (dataMapped v)

/-- `Object.keys(j)` for the values that can reach the degenerate branch
    (`main.js` line 100): objects give their keys, strings their index
    strings, numbers and booleans nothing.  (`null` cannot reach it:
    `j.data` has already thrown.) -/
def objKeys : Json → List String
  | Json.obj fs => fs.map Prod.fst
  | Json.str s => (List.range s.data.length).map natToDec
  | Json.arr xs => (List.range xs.length).map natToDec
  | _ => []

/-- The fixed fallback list of `main.js` line 105. -/
def fallbackModels : List Json :=
  [Json.str "gpt-4o-mini", Json.str "gpt-4o", Json.str "gpt-3.5-turbo"]

/-- The empty-catalog substitution of `main.js` lines 103-107: the flag
    records that the non-fatal notice `'No models found in response;
    using fallback list.'` was appended. -/
def packModels (ms : List Json) : List Json × Bool :=
  if ms.isEmpty then (fallbackModels, true) else (ms, false)

/-- The catalog normalizer, `main.js` lines 94-107: top-level array, else
    `data` array, else `models` array, else up to twenty `Object.keys`.
    `Except.error` models a thrown `TypeError`: `j.data` on a `null`
    body, or a field access on a `null` array element. -/
def normalizeFields (j : Json) : Except Unit (List Json × Bool) :=
  match asArr (fld j "data") with
  | some xs =>
    match mapE dataElemText xs with
    | Except.error e => Except.error e
    | Except.ok ms => Except.ok (packModels ms)
  | none =>
    match asArr (fld j "models") with
    | some xs =>
      match mapE dataElemText xs with
      | Except.error e => Except.error e
      | Except.ok ms => Except.ok (packModels ms)
    | none => Except.ok (packModels ((objKeys j).take 20 |>.map Json.str))

/-- The catalog normalizer with its branch order: a top-level array is
    mapped directly; otherwise `j.data` is read, which throws on a
    `null` body; otherwise the field branches of `normalizeFields`
    apply. -/
def normalizeCatalog (j : Json) : Except Unit (List Json × Bool) :=
  match j with
  | Json.arr xs =>
    match mapE topElemText xs with
    | Except.error e => Except.error e
    | Except.ok ms => Except.ok (packModels ms)
  | Json.null => Except.error ()
  | _ => normalizeFields j

/-- Does any relevant catalog sequence contain a `null` element?  Mirrors
    the branch that `normalizeCatalog` takes. -/
def hasNullElem : List Json → Bool
  | [] => false
  | Json.null :: _ => true
  | _ :: t => hasNullElem t

/-- Sufficient no-throw condition for the field branches of the catalog
    normalizer: the `data`/`models` sequence it maps over, if any, has no
    `null` element. -/
def fieldsNonNull (j : Json) : Bool :=
  match asArr (fld j "data") with
  | some xs => !hasNullElem xs
  | none =>
    match asArr (fld j "models") with
    | some xs => !hasNullElem xs
    | none => true

/-- Sufficient condition for the whole catalog normalizer not to throw:
    the body is not `null` and the sequence its branch maps over has no
    `null` element. -/
def elemsNonNull (j : Json) : Bool :=
  match j with
  | Json.arr xs => !hasNullElem xs
  | _ => fieldsNonNull j

/-- One `{role, content}` entry of the request body. -/
structure ChatMessage where
  role : String
  content : String

/-- The chat request body of `main.js` lines 150-157.  The temperature is
    carried at an arbitrary type: the builder embeds it verbatim (the
    source reads a float from the UI; floats decide nothing here). -/
structure ChatPayload (α : Type) where
  model : Option String
  temperature : α
  messages : List ChatMessage

/-- The payload construction of `main.js` lines 150-157: an optional
    system message (the spread `...(systemPrompt ? [...] : [])`, i.e.
    present exactly when the prompt string is truthy = non-empty)
    followed by the single user message. -/
def buildPayload {α : Type} (model : Option String) (temperature : α)
    (systemPrompt userText : String) : ChatPayload α :=
  { model := model
    temperature := temperature
    messages :=
      (if systemPrompt ≠ "" then [ChatMessage.mk "system" systemPrompt] else [])
        ++ [ChatMessage.mk "user" userText] }

/-- An abstract event sent to the rendering surface.  `appendText` and
    `replaceText` assign `textContent` (the sink does not interpret
    markup); `appendHtml` assigns `innerHTML` (the sink interprets every
    piece of markup in the payload). -/
inductive RenderEvent where
  | appendText (who : String) (text : String)
  | appendHtml (who : String) (text : String)
  | placeholder (id : String)
  | replaceText (id : String) (text : String)

/-- Does the event hand its payload to a markup-interpreting sink
    (`innerHTML`)? -/
def interpretsMarkup : RenderEvent → Bool
  | RenderEvent.appendHtml _ _ => true
  | _ => false

/-- JS truthiness of a string. -/
def truthyStr (s : String) : Bool :=
  s != ""

/-- The success-path rendering decision for an extracted assistant text,
    `main.js` lines 195-208: a text containing a (case-insensitive)
    `<script`/`</script` run is appended via `textContent`; any other
    text has newlines replaced by `<br>` and is assigned to `innerHTML`. -/
def renderAssistantText (s : String) : RenderEvent :=
  if truthyStr s && scriptTagTest s then RenderEvent.appendText "bot" s
  else RenderEvent.appendHtml "bot" (nlToBr s)

/-- The thrown error message for a non-2xx chat response,
    `main.js` line 171: `` `Chat failed: ${res.status} ${txt}` `` — the
    provider-supplied body text rides along verbatim. -/
def chatFailMsg (status : Nat) (body : String) : String :=
  "Chat failed: " ++ natToDec status ++ " " ++ body

/-- The informational CORS/network hint of `main.js` line 218. -/
def corsHintMsg : String :=
  "Network/CORS error detected. Ensure http://116.72.105.227:1234 allows CORS from this origin and that the host is reachable."

/-- The catch block of `sendChat`, `main.js` lines 209-220: the error
    text replaces the placeholder's `textContent` when the placeholder
    still exists, otherwise it is appended as a plain message; a
    CORS/network-looking message additionally appends the plain hint. -/
def handleSendError (placeholderExists : Bool) (tid msg : String) :
    List RenderEvent :=
  (if placeholderExists then [RenderEvent.replaceText tid ("Error: " ++ msg)]
   else [RenderEvent.appendText "bot" ("Error: " ++ msg)]) ++
  (if truthyStr msg && corsMarkerTest msg then
     [RenderEvent.appendText "bot" corsHintMsg]
   else [])

/-- The alert of `main.js` line 130. -/
def apiKeyAlertMsg : String :=
  "API key not found. Provide window.OPENAI_KEY in HTML or an input#apiKey."

/-- Observable session state owned by `sendChat`: placeholder ids of
    exchanges still in flight, events emitted to the rendering surface,
    alerts shown, and HTTP requests issued (credential and body). -/
structure SessionState where
  pendingIds : List String
  renderLog : List RenderEvent
  alerts : List String
  requests : List (String × ChatPayload Int)

/-- The empty session. -/
def initState : SessionState :=
  SessionState.mk [] [] [] []

/-- The inputs a single send event reads from its environment: the
    textarea value, the two credential sources, the generation config
    (model / temperature / system prompt), and `Date.now()` in
    milliseconds. -/
structure SendInput where
  text : String
  globalKey : Option String
  uiKey : Option String
  model : Option String
  temperature : Int
  systemPrompt : String
  now : Nat

/-- The synchronous prefix of `sendChat`, `main.js` lines 121-167: guard
    on blank input, resolve the credential (alert and stop if none),
    append the user message, append the `thinking-` placeholder, and
    issue the HTTP request with the built payload.  The response is a
    separate, later event; nothing here removes a pending exchange and
    nothing guards against one already being in flight. -/
def sendStart (st : SessionState) (inp : SendInput) : SessionState :=
  let userText := jsTrim inp.text
  if userText = "" then st
  else
    match getApiKey inp.globalKey inp.uiKey with
    | none => { st with alerts := st.alerts ++ [apiKeyAlertMsg] }
    | some key =>
      let tid := thinkingId inp.now
      { st with
        renderLog := st.renderLog ++
          [RenderEvent.appendText "user" userText, RenderEvent.placeholder tid]
        pendingIds := st.pendingIds ++ [tid]
        requests := st.requests ++
          [(key, buildPayload inp.model inp.temperature inp.systemPrompt userText)] }

lemma digitChar_toNat (d : Nat) (hd : d < 10) : (digitChar d).toNat = 48 + d := by
  interval_cases d <;> rfl

lemma decDigits_append (l : List Char) (c : Char) :
    decDigits (l ++ [c]) = decDigits l * 10 + (c.toNat - 48) := by
  simp [decDigits, List.foldl_append]

lemma natToDecAux_decode :
    ∀ fuel n : Nat, n ≤ fuel → decDigits (natToDecAux (fuel + 1) n) = n := by
  intro fuel
  induction fuel using Nat.strong_induction_on with
  | _ fuel ih =>
    intro n hn
    rw [natToDecAux]
    by_cases h : n < 10
    · rw [if_pos h]
      simp only [decDigits, List.foldl]
      rw [digitChar_toNat n h]
      omega
    · obtain ⟨f, rfl⟩ : ∃ f, fuel = f + 1 := ⟨fuel - 1, by omega⟩
      rw [if_neg h]
      rw [decDigits_append]
      rw [ih f (by omega) (n / 10) (by omega)]
      rw [digitChar_toNat (n % 10) (by omega)]
      omega

lemma natToDec_data_inj {m n : Nat}
    (h : (natToDec m).data = (natToDec n).data) : m = n := by
  have hd : natToDecAux (m + 1) m = natToDecAux (n + 1) n := h
  have hm := natToDecAux_decode m m (Nat.le_refl m)
  have hn := natToDecAux_decode n n (Nat.le_refl n)
  rw [hd] at hm
  exact hm.symm.trans hn

lemma strAppendData (a b : String) : (a ++ b).data = a.data ++ b.data := by
  cases a
  cases b
  rfl

/-- Claim C9 (amended part): placeholder rendering handles of sends with
    distinct `Date.now()` timestamps are distinct — `'thinking-' + t` is
    injective in `t`. -/
theorem c9_amended_distinct_timestamps :
    ∀ t1 t2 : Nat, t1 ≠ t2 → thinkingId t1 ≠ thinkingId t2 := by
  intro t1 t2 hne heq
  apply hne
  apply natToDec_data_inj
  have hd := congrArg String.data heq
  simp only [thinkingId, strAppendData] at hd
  exact List.append_cancel_left hd

/-- Witness for C9's amended theorem at the timestamps 1000 and 1001. -/
theorem c9_amended_distinct_timestamps_witness :
    thinkingId 1000 ≠ thinkingId 1001 :=
  c9_amended_distinct_timestamps 1000 1001 (by decide)

/-- A first send: non-blank text, a resolvable key, clock at 1000 ms. -/
def sendInputA : SendInput :=
  SendInput.mk "hello" (some "KEY") none (some "m1") 7 "" 1000

/-- A second send issued while the first is still in flight, one
    millisecond later. -/
def sendInputB : SendInput :=
  SendInput.mk "again" (some "KEY") none (some "m1") 7 "" 1001

/-- The same second send, dispatched within the same millisecond as the
    first (`Date.now()` returns the same value). -/
def sendInputSameMs : SendInput :=
  SendInput.mk "again" (some "KEY") none (some "m1") 7 "" 1000

/-- Claim C4: `sendChat` has no single-flight guard.  A second send
    dispatched while the first exchange is still pending is neither
    rejected nor queued: it appends a second placeholder and issues a
    second HTTP request, so two exchanges are pending concurrently.
    (The spec itself notes the source does not enforce the guard and
    calls it a latent defect, so the claim states the intent and the
    code falls short of it.) -/
theorem c4_double_send_two_pending :
    (sendStart initState sendInputA).pendingIds.length = 1 ∧
    (sendStart (sendStart initState sendInputA) sendInputB).pendingIds.length = 2 ∧
    (sendStart (sendStart initState sendInputA) sendInputB).requests.length = 2 := by
  refine ⟨rfl, rfl, rfl⟩

/-- Counterexample to claim C9 as stated: two sends dispatched within the
    same millisecond receive the SAME rendering handle
    (`'thinking-' + Date.now()` collides), so a send's placeholder handle
    is not distinct from every other send's. -/
theorem c9_counterexample_same_timestamp :
    (sendStart (sendStart initState sendInputA) sendInputSameMs).pendingIds =
      [thinkingId 1000, thinkingId 1000] ∧
    ¬ (sendStart (sendStart initState sendInputA) sendInputSameMs).pendingIds.Nodup := by
  constructor
  · rfl
  · decide

/-- Claim C5: when no credential resolves, `sendChat` stops before any
    observable work: no HTTP request is issued, no exchange becomes
    pending, nothing is appended to the message log (no user message, no
    placeholder), and — provided the trimmed input was non-blank, the
    guard that runs first — the failure is surfaced as the API-key
    alert. -/
theorem c5_missing_credential_idle :
    ∀ (st : SessionState) (inp : SendInput),
      getApiKey inp.globalKey inp.uiKey = none →
      (sendStart st inp).requests = st.requests ∧
      (sendStart st inp).pendingIds = st.pendingIds ∧
      (sendStart st inp).renderLog = st.renderLog ∧
      (jsTrim inp.text ≠ "" →
        (sendStart st inp).alerts = st.alerts ++ [apiKeyAlertMsg]) := by
  intro st inp h
  by_cases he : jsTrim inp.text = ""
  · simp [sendStart, he]
  · simp [sendStart, he, h]

/-- A send with non-blank text whose credential sources are an absent
    global key and a blank (whitespace-only) UI key. -/
def sendInputNoKey : SendInput :=
  SendInput.mk "hi" none (some "   ") none 7 "" 0

/-- Witness for C5 at a concrete no-credential send. -/
theorem c5_missing_credential_idle_witness :
    (sendStart initState sendInputNoKey).requests = [] ∧
    (sendStart initState sendInputNoKey).pendingIds = [] ∧
    (sendStart initState sendInputNoKey).renderLog = [] ∧
    (sendStart initState sendInputNoKey).alerts = [apiKeyAlertMsg] := by
  have h := c5_missing_credential_idle initState sendInputNoKey (by decide)
  exact ⟨h.1, h.2.1, h.2.2.1, h.2.2.2 (by decide)⟩

/-- Claim C6: the built request body carries the configured model and
    temperature verbatim, and its message sequence is a system message
    exactly when the system prompt is non-empty, followed by exactly the
    one user message with the user text. -/
theorem c6_build_payload_shape :
    ∀ (α : Type) (model : Option String) (temp : α) (sp ut : String),
      (buildPayload model temp sp ut).model = model ∧
      (buildPayload model temp sp ut).temperature = temp ∧
      (buildPayload model temp sp ut).messages =
        (if sp = "" then [ChatMessage.mk "user" ut]
         else [ChatMessage.mk "system" sp, ChatMessage.mk "user" ut]) := by
  intro α model temp sp ut
  refine ⟨rfl, rfl, ?_⟩
  by_cases h : sp = "" <;> simp [buildPayload, h]

/-- A provider-controlled text that carries no `<script` marker but does
    carry an injection vector the filter does not catch. -/
def imgInjection : String := "<img src=x onerror=alert(1)>"

/-- Counterexample to claim C1 as stated: this text contains no
    case-insensitive `<script`/`</script` run, so it takes the
    "otherwise" branch — yet that branch assigns the text (markup
    included) to `innerHTML`, a markup-interpreting sink.  The `<img ...>`
    markup in the text IS interpreted, contradicting "no other markup in
    the text is interpreted". -/
theorem c1_counterexample :
    scriptTagTest imgInjection = false ∧
    hasSubStr "<img" imgInjection = true ∧
    renderAssistantText imgInjection = RenderEvent.appendHtml "bot" imgInjection ∧
    interpretsMarkup (renderAssistantText imgInjection) = true := by
  refine ⟨by decide, by decide, rfl, by decide⟩

/-- Claim C1 (amended): a text containing a case-insensitive `<script` or
    `</script` run is rendered as plain text with no markup
    interpretation; any other text is rendered, after the
    newline-to-`<br>` substitution and nothing else, through the
    markup-interpreting `innerHTML` sink. -/
theorem c1_amended_render_policy :
    ∀ s : String,
      (scriptTagTest s = true →
        renderAssistantText s = RenderEvent.appendText "bot" s ∧
        interpretsMarkup (renderAssistantText s) = false) ∧
      (scriptTagTest s = false →
        renderAssistantText s = RenderEvent.appendHtml "bot" (nlToBr s)) := by
  intro s
  constructor
  · intro h
    have hne : s ≠ "" := by
      intro hs
      rw [hs] at h
      exact absurd h (by decide)
    have ht : truthyStr s = true := by
      simpa [truthyStr] using hne
    refine ⟨?_, ?_⟩ <;> simp [renderAssistantText, ht, h, interpretsMarkup]
  · intro h
    simp [renderAssistantText, h]

/-- Witness for C1's amended theorem: a script-bearing text goes to the
    plain-text sink, a plain two-line text goes to the HTML sink with its
    newline turned into a `<br>`. -/
theorem c1_amended_render_policy_witness :
    renderAssistantText "<SCRIPT>alert(1)</SCRIPT>" =
      RenderEvent.appendText "bot" "<SCRIPT>alert(1)</SCRIPT>" ∧
    renderAssistantText "a\nb" = RenderEvent.appendHtml "bot" "a<br>b" := by
  constructor
  · exact ((c1_amended_render_policy "<SCRIPT>alert(1)</SCRIPT>").1 (by decide)).1
  · exact (c1_amended_render_policy "a\nb").2 (by decide)

/-- Claim C10: every event the failure path emits — the error text that
    replaces the placeholder (or is appended when the placeholder is
    gone) and the optional CORS hint — goes to a plain-text sink; none is
    handed to `innerHTML`.  In particular this holds for the
    `Chat failed: <status> <body>` message that carries the
    provider-supplied response body. -/
theorem c10_error_rendered_plain :
    ∀ (placeholderExists : Bool) (tid msg : String),
      ((handleSendError placeholderExists tid msg).all
        (fun e => !interpretsMarkup e)) = true ∧
      ∀ (status : Nat) (body : String),
        ((handleSendError placeholderExists tid (chatFailMsg status body)).all
          (fun e => !interpretsMarkup e)) = true := by
  have key : ∀ (b : Bool) (tid msg : String),
      ((handleSendError b tid msg).all (fun e => !interpretsMarkup e)) = true := by
    intro b tid msg
    unfold handleSendError
    cases b <;> cases hc : truthyStr msg && corsMarkerTest msg <;>
      simp [hc, interpretsMarkup]
  intro b tid msg
  exact ⟨key b tid msg, fun status body => key b tid (chatFailMsg status body)⟩

lemma exists_ok_of_ne_error {e : Except Unit Json} (h : e ≠ Except.error ()) :
    ∃ r, e = Except.ok r := by
  cases e with
  | error u => cases u; exact absurd rfl h
  | ok r => exact ⟨r, rfl⟩

lemma hasNullElem_cons {x : Json} {t : List Json}
    (h : hasNullElem (x :: t) = false) :
    isNull x = false ∧ hasNullElem t = false := by
  cases x <;> simp [hasNullElem, isNull] at h ⊢ <;> exact h

lemma mapE_ok_of_no_null (f : Json → Except Unit Json)
    (hf : ∀ x : Json, isNull x = false → ∃ y, f x = Except.ok y) :
    ∀ xs : List Json, hasNullElem xs = false →
      ∃ ys, mapE f xs = Except.ok ys := by
  intro xs
  induction xs with
  | nil => intro _; exact ⟨[], rfl⟩
  | cons x t ih =>
    intro h
    obtain ⟨hx, ht⟩ := hasNullElem_cons h
    obtain ⟨y, hy⟩ := hf x hx
    obtain ⟨ys, hys⟩ := ih ht
    exact ⟨y :: ys, by simp [mapE, hy, hys]⟩

lemma topElemText_ok :
    ∀ x : Json, isNull x = false → ∃ y, topElemText x = Except.ok y := by
  intro x hx
  cases x <;> first
    | exact absurd hx (by decide)
    | exact ⟨_, rfl⟩

lemma outputElemText_ok :
    ∀ x : Json, isNull x = false → ∃ y, outputElemText x = Except.ok y := by
  intro x hx
  cases x <;> first
    | exact absurd hx (by decide)
    | exact ⟨_, rfl⟩

lemma mapE_dataElem (xs : List Json) (h : hasNullElem xs = false) :
    mapE dataElemText xs = Except.ok (xs.map dataMapped) := by
  induction xs with
  | nil => rfl
  | cons x t ih =>
    obtain ⟨hx, ht⟩ := hasNullElem_cons h
    have hone : dataElemText x = Except.ok (dataMapped x) := by
      cases x <;> first
        | exact absurd hx (by decide)
        | rfl
    simp [mapE, hone, ih ht]

/-- Sufficient no-throw condition for the `output` branch of the
    response normalizer: if the `output` field is a sequence, it has no
    `null` element. -/
def outputNullFree (j : Json) : Bool :=
  match asArr (fld j "output") with
  | some xs => !hasNullElem xs
  | none => true

/-- Counterexample to claim C2 as stated: on the JSON body `null` the
    extraction is not total — `j.choices` throws a TypeError (caught
    upstream as a failed exchange), so no text is returned. -/
theorem c2_counterexample_null_raises :
    extractText Json.null = Except.error () := rfl

/-- Claim C2 (amended): the extraction never throws except on the body
    `null` (and on an `output` sequence with a `null` element); on every
    other body it returns a result — possibly the JS `null` when a
    non-empty `choices` sequence yields no recognized content — and when
    no branch matches, the result is the pretty-printed JSON string form
    of the whole value. -/
theorem c2_amended_totality :
    ∀ j : Json, isNull j = false → outputNullFree j = true →
      (∃ r, extractText j = Except.ok r) ∧
      ((choicesHead j).isNone = true → truthy (fld j "output") = false →
        truthy (fld j "result") = false →
        extractText j = Except.ok (Json.str (pretty2 j))) := by
  intro j hnull hout
  have hext : extractText j = extractTextCore j := by simp [extractText, hnull]
  refine ⟨?_, ?_⟩
  · rw [hext]
    cases hch : choicesHead j with
    | some c => exact ⟨orNull (contentOf c), by simp [extractTextCore, hch]⟩
    | none =>
      cases hoT : truthy (fld j "output") with
      | true =>
        cases ho : fld j "output" with
        | none => rw [ho] at hoT; exact absurd hoT (by decide)
        | some v =>
          have htv := hoT
          rw [ho] at htv
          cases v with
          | null => exact absurd htv (by decide)
          | str s => exact ⟨Json.str s, by simp [extractTextCore, hch, ho, htv]⟩
          | arr xs =>
            have hxs : hasNullElem xs = false := by
              simpa [outputNullFree, ho, asArr] using hout
            obtain ⟨ys, hys⟩ :=
              mapE_ok_of_no_null outputElemText outputElemText_ok xs hxs
            exact ⟨Json.str (joinNl ys),
              by simp [extractTextCore, hch, ho, htv, hys]⟩
          | bool b =>
            exact ⟨Json.str (jsonStringify (Json.bool b)),
              by simp [extractTextCore, hch, ho, htv]⟩
          | num n =>
            exact ⟨Json.str (jsonStringify (Json.num n)),
              by simp [extractTextCore, hch, ho, htv]⟩
          | obj fs =>
            exact ⟨Json.str (jsonStringify (Json.obj fs)),
              by simp [extractTextCore, hch, ho, htv]⟩
      | false =>
        cases hrT : truthy (fld j "result") with
        | true =>
          exact ⟨(fld j "result").getD Json.null,
            by simp [extractTextCore, hch, hoT, hrT]⟩
        | false =>
          exact ⟨Json.str (pretty2 j),
            by simp [extractTextCore, hch, hoT, hrT]⟩
  · intro hchN hoF hrF
    rw [hext]
    have hch : choicesHead j = none := Option.isNone_iff_eq_none.mp hchN
    simp [extractTextCore, hch, hoF, hrF]

/-- Witness for C2's amended theorem: a body matching no branch falls
    back to the pretty-printed JSON string form. -/
theorem c2_amended_totality_witness :
    extractText (Json.obj [("foo", Json.num 1)]) =
      Except.ok (Json.str (pretty2 (Json.obj [("foo", Json.num 1)]))) :=
  (c2_amended_totality (Json.obj [("foo", Json.num 1)]) (by decide)
    (by decide)).2 (by decide) (by decide) (by decide)

lemma packModels_spec (ms : List Json) :
    (packModels ms).1 ≠ [] ∧
      ((packModels ms).2 = true → (packModels ms).1 = fallbackModels) := by
  by_cases h : ms.isEmpty = true
  · simp [packModels, h, fallbackModels]
  · have hne : ms ≠ [] := by
      intro hnil
      rw [hnil] at h
      exact h rfl
    simp [packModels, h, hne]

lemma normalizeFields_ok (j : Json) (h : fieldsNonNull j = true) :
    ∃ l, normalizeFields j = Except.ok (packModels l) := by
  cases hd : asArr (fld j "data") with
  | some xs =>
    have hxs : hasNullElem xs = false := by
      simpa [fieldsNonNull, hd] using h
    exact ⟨xs.map dataMapped,
      by simp [normalizeFields, hd, mapE_dataElem xs hxs]⟩
  | none =>
    cases hm : asArr (fld j "models") with
    | some xs =>
      have hxs : hasNullElem xs = false := by
        simpa [fieldsNonNull, hd, hm] using h
      exact ⟨xs.map dataMapped,
        by simp [normalizeFields, hd, hm, mapE_dataElem xs hxs]⟩
    | none =>
      exact ⟨(objKeys j).take 20 |>.map Json.str,
        by simp [normalizeFields, hd, hm]⟩

/-- Counterexample to claim C3 as stated: on the catalog body `null` the
    normalizer is not total — `j.data` throws a TypeError (caught
    upstream as the error path, not the fallback list). -/
theorem c3_counterexample_null_raises :
    normalizeCatalog Json.null = Except.error () := rfl

/-- Claim C3 (amended): for every catalog body other than `null` whose
    mapped sequence (top-level, `data` or `models`) has no `null`
    element, the normalizer returns a non-empty ordered sequence without
    throwing, substituting the fixed fallback list exactly when it
    signals the non-fatal empty-catalog notice.  (A `null` body or a
    `null` element throws a TypeError instead of being treated as an
    absent field.) -/
theorem c3_amended_normalize_nonempty :
    ∀ j : Json, isNull j = false → elemsNonNull j = true →
      ∃ ms fb, normalizeCatalog j = Except.ok (ms, fb) ∧ ms ≠ [] ∧
        (fb = true → ms = fallbackModels) := by
  intro j hnull helem
  have key : ∃ l, normalizeCatalog j = Except.ok (packModels l) := by
    cases j with
    | null => exact absurd hnull (by decide)
    | arr xs =>
      have hxs : hasNullElem xs = false := by
        simpa [elemsNonNull] using helem
      obtain ⟨ys, hys⟩ := mapE_ok_of_no_null topElemText topElemText_ok xs hxs
      exact ⟨ys, by simp [normalizeCatalog, hys]⟩
    | bool b =>
      obtain ⟨l, hl⟩ := normalizeFields_ok (Json.bool b)
        (by simpa [elemsNonNull] using helem)
      exact ⟨l, by simp [normalizeCatalog, hl]⟩
    | num n =>
      obtain ⟨l, hl⟩ := normalizeFields_ok (Json.num n)
        (by simpa [elemsNonNull] using helem)
      exact ⟨l, by simp [normalizeCatalog, hl]⟩
    | str s =>
      obtain ⟨l, hl⟩ := normalizeFields_ok (Json.str s)
        (by simpa [elemsNonNull] using helem)
      exact ⟨l, by simp [normalizeCatalog, hl]⟩
    | obj fs =>
      obtain ⟨l, hl⟩ := normalizeFields_ok (Json.obj fs)
        (by simpa [elemsNonNull] using helem)
      exact ⟨l, by simp [normalizeCatalog, hl]⟩
  obtain ⟨l, hl⟩ := key
  exact ⟨(packModels l).1, (packModels l).2, hl, (packModels_spec l).1,
    (packModels_spec l).2⟩

/-- Witness for C3's amended theorem at the empty-object catalog body
    (spec scenario 3): the fallback list and the notice apply. -/
theorem c3_amended_normalize_nonempty_witness :
    ∃ ms fb, normalizeCatalog (Json.obj []) = Except.ok (ms, fb) ∧ ms ≠ [] ∧
      (fb = true → ms = fallbackModels) :=
  c3_amended_normalize_nonempty (Json.obj []) (by decide) (by decide)

/-- Counterexample to claim C8 as stated: a `null` element of `data` is
    not mapped to its JSON string form `"null"` — the access `m.id`
    throws a TypeError, so the whole normalization errors out. -/
theorem c8_counterexample_null_element :
    normalizeCatalog (Json.obj [("data", Json.arr [Json.null])]) =
      Except.error () := rfl

/-- Claim C8 (amended): when the catalog body has a `data` field holding
    a sequence with no `null` element, each element is mapped — in
    order — to its `id` field, else `name`, else `model`, else its JSON
    string form, and the spec scenario
    `{"data":[{"id":"m1"},{"id":"m2"}]}` normalizes to `["m1","m2"]`
    with no fallback notice. -/
theorem c8_amended_data_mapping :
    ∀ (fs : List (String × Json)) (xs : List Json),
      lookupFld fs "data" = some (Json.arr xs) →
      hasNullElem xs = false →
      normalizeCatalog (Json.obj fs) =
        Except.ok (packModels (xs.map dataMapped)) ∧
      normalizeCatalog
          (Json.obj [("data", Json.arr [Json.obj [("id", Json.str "m1")],
            Json.obj [("id", Json.str "m2")]])]) =
        Except.ok ([Json.str "m1", Json.str "m2"], false) := by
  intro fs xs hd hxs
  refine ⟨?_, rfl⟩
  have ha : asArr (fld (Json.obj fs) "data") = some xs := by
    simp [asArr, fld, hd]
  simp [normalizeCatalog, normalizeFields, ha, mapE_dataElem xs hxs]

/-- Witness for C8's amended theorem at the spec scenario 1 input. -/
theorem c8_amended_data_mapping_witness :
    normalizeCatalog
        (Json.obj [("data", Json.arr [Json.obj [("id", Json.str "m1")],
          Json.obj [("id", Json.str "m2")]])]) =
      Except.ok (packModels
        ([Json.obj [("id", Json.str "m1")],
          Json.obj [("id", Json.str "m2")]].map dataMapped)) :=
  (c8_amended_data_mapping
    [("data", Json.arr [Json.obj [("id", Json.str "m1")],
      Json.obj [("id", Json.str "m2")]])]
    [Json.obj [("id", Json.str "m1")], Json.obj [("id", Json.str "m2")]]
    rfl rfl).1

/-- Claim C7: the response extraction tries `choices`, then `output`,
    then `result`, then the pretty-printed JSON fallback, first match
    winning, and within the first choice `message.content` wins over
    `text`, which wins over `delta.content`.  Each conjunct is the
    extraction evaluated on a body witnessing one precedence or one spec
    scenario (scenarios 4 and 5 first). -/
theorem c7_extract_branch_order :
    extractText (Json.obj [("choices", Json.arr [Json.obj [("message",
        Json.obj [("content", Json.str "Hi")])]])]) =
      Except.ok (Json.str "Hi") ∧
    extractText (Json.obj [("result", Json.str "ok")]) =
      Except.ok (Json.str "ok") ∧
    extractText (Json.obj [("choices", Json.arr [Json.obj [("message",
        Json.obj [("content", Json.str "Hi")])]]),
        ("output", Json.str "OUT"), ("result", Json.str "RES")]) =
      Except.ok (Json.str "Hi") ∧
    extractText (Json.obj [("output", Json.str "OUT"),
        ("result", Json.str "RES")]) =
      Except.ok (Json.str "OUT") ∧
    extractText (Json.obj [("result", Json.str "RES"), ("x", Json.num 1)]) =
      Except.ok (Json.str "RES") ∧
    extractText (Json.obj [("x", Json.num 1)]) =
      Except.ok (Json.str "\x7b\n  \"x\": 1\n\x7d") ∧
    extractText (Json.obj [("choices", Json.arr [Json.obj [("message",
        Json.obj [("content", Json.str "A")]), ("text", Json.str "B")]])]) =
      Except.ok (Json.str "A") ∧
    extractText (Json.obj [("choices", Json.arr [Json.obj [("text",
        Json.str "B"), ("delta", Json.obj [("content", Json.str "C")])]])]) =
      Except.ok (Json.str "B") ∧
    extractText (Json.obj [("choices", Json.arr [Json.obj [("delta",
        Json.obj [("content", Json.str "C")])]])]) =
      Except.ok (Json.str "C") := by
  refine ⟨rfl, rfl, rfl, rfl, rfl, rfl, rfl, rfl, rfl⟩
